import Mathlib

/-!
# Rule-change message hub (`cluster/message.go`)

A shallow embedding of the hub that propagates rule additions and deletions
from a master node to replica nodes over a fanout exchange.

* The straight-line code of `New`, `publisherW` and `consumerW` is embedded as
  functions from the outcomes of the transport calls to the trace of effects
  the code performs (writes on `errCh`, publish calls, calls on the rules
  cache, the deferred channel close).
* The three master goroutines that communicate through `addRuleCh`,
  `delRuleCh` and `msgCh` are embedded as a step function on the contents of
  those channels; an interleaving is a list of actions.
-/

namespace Cluster

/-! ## Constants (lines 12-23) -/

/-- Rule type tag of an addition (line 14). -/
def RULEADD : String := "add"

/-- Rule type tag of a deletion (line 15). -/
def RULEDELETE : String := "delete"

/-- Exchange kind used by both roles (line 20). -/
def ExchangeType : String := "fanout"

/-- Capacity of each notification channel; `msgCh` has twice this (line 23). -/
def bufferedChangedRulesLimit : Nat := 128

/-! ## Data model -/

/-- A Go `error` value that is not nil; `Option Error` is a nilable `error`. -/
abbrev Error := String

/-- Byte payloads (`[]byte`). -/
abbrev Bytes := List Nat

/-- Modelled from the spec: `models.Rule` is not part of the source file. The
spec describes it as an opaque record with a unique identifier `ID` and
arbitrary rule-definition fields; `definition` stands for all the other
fields. -/
structure Rule where
  ID : Int
  definition : String
deriving DecidableEq, Repr

/-- The wire record (lines 25-28). `Rule` is a pointer in the source, so it may
be nil: `none`. The field `Type` is spelled `Type_` because `Type` is reserved. -/
structure message where
  Type_ : String
  Rule : Option Rule
deriving DecidableEq, Repr

/-- Options for message hub (lines 31-37). -/
structure Options where
  Master : Bool
  DSN : String
  VHost : String
  ExchangeName : String
  QueueName : String
deriving DecidableEq, Repr

/-- The hub (lines 40-47). The channels `msgCh`, `addRuleCh` and `delRuleCh`
are state and live in `Pipeline`; the connection is represented by the
transport outcomes handed to the functions that use it. -/
structure Hub where
  opts : Options
deriving DecidableEq, Repr

/-- Outcomes of the amqp calls, as functions of the arguments the hub passes.
`none` is a nil error. `QueueDeclare` yields the declared queue's name. -/
structure Transport where
  Dial : String → Option Error
  Channel : Option Error
  ExchangeDeclare : String → String → Option Error
  QueueDeclare : String → Except Error String
  QueueBind : String → String → String → Option Error
  Consume : String → Option Error

/-- Effects performed by the background tasks, in program order. -/
inductive Event where
  /-- A send on the result channel: `errCh <- err`. -/
  | errChSend (err : Option Error)
  /-- The call `ch.Publish(exchange, key, false, false, Publishing{ContentType, Body})`
  of line 121; `msg` records which dequeued message the body was serialized from. -/
  | Publish (exchange key contentType : String) (body : Bytes) (msg : message)
  /-- The call `h.db.Admin.RulesCache.Put(m.Rule)` of line 169. -/
  | Put (rule : Rule)
  /-- The call `h.db.Admin.RulesCache.Delete(m.Rule.ID)` of line 171. -/
  | Delete (id : Int)
  /-- The deferred `ch.Close()` that runs when the task returns. -/
  | ChannelClose
deriving DecidableEq, Repr

/-- What a background task did: its effects in order, and whether the function
returned (`false`: it is blocked in its `range` loop on a channel that has not
been closed). -/
structure Run where
  trace : List Event
  returned : Bool
deriving DecidableEq, Repr

/-- The values sent on `errCh`, in order. -/
def errChWrites : List Event → List (Option Error)
  | [] => []
  | Event.errChSend e :: rest => e :: errChWrites rest
  | _ :: rest => errChWrites rest

/-! ## Rules cache -/

/-- Modelled from the spec: the Rule Change Source (`storage.DB.Admin.RulesCache`)
is not part of the source file. The spec describes it as a collection of rules
keyed by identifier with `Put(rule)`, an upsert that overwrites any existing rule
of the same identifier, and `Delete(id)`, an idempotent remove. -/
structure RulesCache where
  rules : List Rule
deriving DecidableEq, Repr

/-- Modelled from the spec: the rule stored at an identifier, if any. -/
def RulesCache.Get (c : RulesCache) (id : Int) : Option Rule :=
  c.rules.find? (fun r => decide (r.ID = id))

/-- Modelled from the spec: `Put(rule)`, upsert. -/
def RulesCache.Put (c : RulesCache) (rule : Rule) : RulesCache :=
  ⟨rule :: c.rules.filter (fun r => decide (r.ID ≠ rule.ID))⟩

/-- Modelled from the spec: `Delete(id)`, idempotent remove. -/
def RulesCache.Delete (c : RulesCache) (id : Int) : RulesCache :=
  ⟨c.rules.filter (fun r => decide (r.ID ≠ id))⟩

/-- The effect of one event on the rules cache: only `Put` and `Delete` calls
touch it. -/
def RulesCache.apply (c : RulesCache) : Event → RulesCache
  | Event.Put rule => c.Put rule
  | Event.Delete id => c.Delete id
  | _ => c

/-- The rules cache after a trace of events. -/
def RulesCache.run (c : RulesCache) : List Event → RulesCache
  | [] => c
  | e :: rest => (c.apply e).run rest

/-! ## Replica: the consumer (lines 130-174) -/

/-- The body of the consumer loop for one delivery (lines 159-172).
`unmarshal` is `json.Unmarshal` into a fresh `message`; `none` is `err != nil`. -/
def consumerIter (unmarshal : Bytes → Option message) (body : Bytes) : List Event :=
  match unmarshal body with
  | none => []
  | some m =>
    match m.Rule with
    | none => []
    | some rule =>
      if m.Type_ = RULEADD then [Event.Put rule]
      else if m.Type_ = RULEDELETE then [Event.Delete rule.ID]
      else []

/-- The loop `for msg := range msgs` (lines 158-173) over the deliveries that
arrive before the inbound sequence ends. -/
def consumerLoop (unmarshal : Bytes → Option message) : List Bytes → List Event
  | [] => []
  | body :: rest => consumerIter unmarshal body ++ consumerLoop unmarshal rest

/-- The consumer task `consumerW` (lines 130-174). `msgs` are the deliveries
received and `closed` tells whether the transport then closed the inbound
sequence (the loop ends and the function returns) or not (the task stays
blocked on the next receive). -/
def consumerW (t : Transport) (h : Hub) (unmarshal : Bytes → Option message)
    (msgs : List Bytes) (closed : Bool) : Run :=
  match t.Channel with
  | some err => ⟨[Event.errChSend (some err)], true⟩
  | none =>
    match t.ExchangeDeclare h.opts.ExchangeName ExchangeType with
    | some err => ⟨[Event.errChSend (some err), Event.ChannelClose], true⟩
    | none =>
      match t.QueueDeclare h.opts.QueueName with
      | Except.error err => ⟨[Event.errChSend (some err), Event.ChannelClose], true⟩
      | Except.ok qName =>
        match t.QueueBind qName "" h.opts.ExchangeName with
        | some err => ⟨[Event.errChSend (some err), Event.ChannelClose], true⟩
        | none =>
          match t.Consume qName with
          | some err => ⟨[Event.errChSend (some err), Event.ChannelClose], true⟩
          | none =>
            if closed then
              ⟨Event.errChSend none :: consumerLoop unmarshal msgs ++ [Event.ChannelClose], true⟩
            else
              ⟨Event.errChSend none :: consumerLoop unmarshal msgs, false⟩

/-- A payload the consumer drops: it fails to deserialize, or it deserializes
to a message whose rule is nil. -/
def dropped (unmarshal : Bytes → Option message) (body : Bytes) : Bool :=
  match unmarshal body with
  | none => true
  | some m => m.Rule.isNone

/-! ## Master: the publisher (lines 103-128) -/

/-- The body of the publisher loop for one dequeued message (lines 117-125).
`marshal` is `json.Marshal`; `none` is `err != nil`. `publishErr` is what the
`ch.Publish` call of this iteration returns; the source assigns it to `err`
and never reads it. -/
def publisherIter (h : Hub) (marshal : message → Option Bytes)
    (publishErr : Option Error) (msg : message) : List Event :=
  match marshal msg with
  | none => []
  | some buf =>
    let _err := publishErr
    [Event.Publish h.opts.ExchangeName "" "text/plain" buf msg]

/-- The loop `for msg := range h.msgCh` (lines 116-126) over the messages taken
from the outbound queue, from iteration number `i` on. `publishErrs k` is the
outcome of the publish call of iteration `k`. -/
def publisherLoop (h : Hub) (marshal : message → Option Bytes)
    (publishErrs : Nat → Option Error) : Nat → List message → List Event
  | _, [] => []
  | i, msg :: rest =>
    publisherIter h marshal (publishErrs i) msg
      ++ publisherLoop h marshal publishErrs (i + 1) rest

/-- The publisher task `publisherW` (lines 103-128). `msgCh` are the messages
taken from the outbound queue and `closed` tells whether the queue was then
closed (the loop ends and the function returns) or not (the task stays blocked
on the next receive). -/
def publisherW (t : Transport) (h : Hub) (marshal : message → Option Bytes)
    (publishErrs : Nat → Option Error) (msgCh : List message) (closed : Bool) : Run :=
  match t.Channel with
  | some err => ⟨[Event.errChSend (some err)], true⟩
  | none =>
    match t.ExchangeDeclare h.opts.ExchangeName ExchangeType with
    | some err => ⟨[Event.errChSend (some err), Event.ChannelClose], true⟩
    | none =>
      if closed then
        ⟨Event.errChSend none :: publisherLoop h marshal publishErrs 0 msgCh
          ++ [Event.ChannelClose], true⟩
      else
        ⟨Event.errChSend none :: publisherLoop h marshal publishErrs 0 msgCh, false⟩

/-! ## Construction (lines 50-76) -/

/-- Everything outside the hub that its code depends on: the transport
outcomes, the json functions, and what flows through the channels the
background task ranges over. -/
structure Env where
  transport : Transport
  marshal : message → Option Bytes
  unmarshal : Bytes → Option message
  publishErrs : Nat → Option Error
  outbound : List message
  outboundClosed : Bool
  inbound : List Bytes
  inboundClosed : Bool

/-- What `New` hands back and what it did before returning. -/
structure NewResult where
  /-- The returned `*Hub` (`none` is nil). -/
  hub : Option Hub
  /-- The returned `error` (`none` is nil). -/
  err : Option Error
  /-- Whether `h.Close()`, that is `h.conn.Close()`, was called (line 72). -/
  connClosed : Bool
  /-- Whether `h.initRuleListener()` ran (line 65): the cache delivers into
  `addRuleCh` and `delRuleCh` and the two forwarder goroutines exist. -/
  listeners : Bool
  /-- The background task started with `go` (lines 66 and 68), if any. -/
  worker : Option Run

/-- The constructor `New` (lines 50-76). The receive `err = <-errCh` takes the
first value the background task sends; when the task never sends, the receive
never completes and `New` does not return: `none`. -/
def New (env : Env) (opts : Options) : Option NewResult :=
  match env.transport.Dial opts.DSN with
  | some err => some ⟨none, some err, false, false, none⟩
  | none =>
    let h : Hub := ⟨opts⟩
    let worker : Run :=
      if opts.Master then
        publisherW env.transport h env.marshal env.publishErrs env.outbound env.outboundClosed
      else
        consumerW env.transport h env.unmarshal env.inbound env.inboundClosed
    match (errChWrites worker.trace).head? with
    | none => none
    | some (some err) => some ⟨none, some err, true, opts.Master, some worker⟩
    | some none => some ⟨some h, none, false, opts.Master, some worker⟩

/-- The first error among the outcomes of a sequence of setup steps. -/
def firstError : List (Option Error) → Option Error
  | [] => none
  | some err :: _ => some err
  | none :: rest => firstError rest

/-- The outcomes of the setup steps of the publisher, in program order. -/
def publisherSetup (t : Transport) (opts : Options) : List (Option Error) :=
  [t.Channel, t.ExchangeDeclare opts.ExchangeName ExchangeType]

/-- The outcomes of the setup steps of the consumer, in program order; binding
and consuming use the name of the declared queue. -/
def consumerSetup (t : Transport) (opts : Options) : List (Option Error) :=
  [t.Channel, t.ExchangeDeclare opts.ExchangeName ExchangeType] ++
    (match t.QueueDeclare opts.QueueName with
      | Except.error err => [some err]
      | Except.ok qName => [none, t.QueueBind qName "" opts.ExchangeName, t.Consume qName])

/-- The outcomes of all setup steps `New` depends on, for the role in `opts`. -/
def setupSteps (t : Transport) (opts : Options) : List (Option Error) :=
  t.Dial opts.DSN ::
    (if opts.Master then publisherSetup t opts else consumerSetup t opts)

/-- Whether one of the setup steps fails. -/
def setupFails (t : Transport) (opts : Options) : Bool :=
  (setupSteps t opts).any Option.isSome

/-! ## Master: forwarders, outbound queue and publisher as a transition system
(lines 78-101 and 116-126) -/

/-- The state shared by the notification source, the two forwarder goroutines
and the publisher. -/
structure Pipeline where
  /-- Whether `initRuleListener` ran: the channels are registered with the
  cache and the forwarders exist. -/
  listeners : Bool
  /-- Whether the publisher is in its `range h.msgCh` loop. -/
  publishing : Bool
  /-- Contents of `addRuleCh`, oldest first (capacity 128). -/
  addRuleCh : List Rule
  /-- Contents of `delRuleCh`, oldest first (capacity 128). -/
  delRuleCh : List Rule
  /-- Contents of `msgCh`, oldest first (capacity 256). -/
  msgCh : List message
  /-- The variable `rule` of the add forwarder between its receive (line 88)
  and its send (line 89). -/
  addRule : Option Rule
  /-- The variable `rule` of the delete forwarder between lines 97 and 98. -/
  delRule : Option Rule
  /-- Number of messages the publisher has taken from `msgCh`. -/
  iter : Nat
  /-- Effects of the publisher loop so far. -/
  published : List Event
  /-- History: add notifications delivered into `addRuleCh`, in arrival order. -/
  addNotified : List Rule
  /-- History: delete notifications delivered into `delRuleCh`, in arrival order. -/
  delNotified : List Rule
deriving DecidableEq, Repr

/-- One atomic action of one of the tasks. -/
inductive Action where
  /-- The rules cache delivers an add notification into `addRuleCh`. -/
  | OnAdd (rule : Rule)
  /-- The rules cache delivers a delete notification into `delRuleCh`. -/
  | OnDel (rule : Rule)
  /-- Line 88: `rule := <-h.addRuleCh`. -/
  | addRecv
  /-- Line 89: `h.msgCh <- &message{Type: RULEADD, Rule: rule}`. -/
  | addSend
  /-- Line 97: `rule := <-h.delRuleCh`. -/
  | delRecv
  /-- Line 98: `h.msgCh <- &message{Type: RULEDELETE, Rule: rule}`. -/
  | delSend
  /-- Lines 116-125: the publisher takes the next message and handles it. -/
  | publish
deriving DecidableEq, Repr

/-- The pipeline right after the goroutines have been started, all channels
empty (lines 59-61). -/
def Pipeline.start (listeners publishing : Bool) : Pipeline :=
  ⟨listeners, publishing, [], [], [], none, none, 0, [], [], []⟩

/-- One action from a state; `none` when the action is not enabled there (a
receive on an empty channel or a send on a full one blocks). -/
def step (h : Hub) (marshal : message → Option Bytes) (publishErrs : Nat → Option Error)
    (s : Pipeline) : Action → Option Pipeline
  | Action.OnAdd rule =>
    if s.listeners = true ∧ s.addRuleCh.length < bufferedChangedRulesLimit then
      some { s with addRuleCh := s.addRuleCh ++ [rule], addNotified := s.addNotified ++ [rule] }
    else none
  | Action.OnDel rule =>
    if s.listeners = true ∧ s.delRuleCh.length < bufferedChangedRulesLimit then
      some { s with delRuleCh := s.delRuleCh ++ [rule], delNotified := s.delNotified ++ [rule] }
    else none
  | Action.addRecv =>
    match s.listeners, s.addRule, s.addRuleCh with
    | true, none, rule :: rest => some { s with addRule := some rule, addRuleCh := rest }
    | _, _, _ => none
  | Action.addSend =>
    match s.listeners, s.addRule with
    | true, some rule =>
      if s.msgCh.length < bufferedChangedRulesLimit * 2 then
        some { s with msgCh := s.msgCh ++ [⟨RULEADD, some rule⟩], addRule := none }
      else none
    | _, _ => none
  | Action.delRecv =>
    match s.listeners, s.delRule, s.delRuleCh with
    | true, none, rule :: rest => some { s with delRule := some rule, delRuleCh := rest }
    | _, _, _ => none
  | Action.delSend =>
    match s.listeners, s.delRule with
    | true, some rule =>
      if s.msgCh.length < bufferedChangedRulesLimit * 2 then
        some { s with msgCh := s.msgCh ++ [⟨RULEDELETE, some rule⟩], delRule := none }
      else none
    | _, _ => none
  | Action.publish =>
    match s.publishing, s.msgCh with
    | true, msg :: rest =>
      some { s with
        msgCh := rest
        iter := s.iter + 1
        published := s.published ++ publisherIter h marshal (publishErrs s.iter) msg }
    | _, _ => none

/-- An interleaving: the actions taken, in order. `none` when some action of
the list is not enabled at its turn. -/
def exec (h : Hub) (marshal : message → Option Bytes) (publishErrs : Nat → Option Error) :
    Pipeline → List Action → Option Pipeline
  | s, [] => some s
  | s, a :: rest =>
    match step h marshal publishErrs s a with
    | none => none
    | some s1 => exec h marshal publishErrs s1 rest

/-- The messages for which a publish call was issued, in call order. -/
def publishedMsgs : List Event → List message
  | [] => []
  | Event.Publish _ _ _ _ msg :: rest => msg :: publishedMsgs rest
  | _ :: rest => publishedMsgs rest

/-- The message a forwarder builds for a rule. -/
def wrap (ty : String) (rule : Rule) : message := ⟨ty, some rule⟩

theorem RulesCache.get_put (c : RulesCache) (rule : Rule) :
    (c.Put rule).Get rule.ID = some rule := by
  simp [RulesCache.Put, RulesCache.Get, List.find?]

theorem RulesCache.get_delete (c : RulesCache) (id : Int) :
    (c.Delete id).Get id = none := by
  simp [RulesCache.Delete, RulesCache.Get, List.find?_eq_none, List.mem_filter]

theorem RulesCache.run_append (c : RulesCache) (xs ys : List Event) :
    c.run (xs ++ ys) = (c.run xs).run ys := by
  induction xs generalizing c with
  | nil => rfl
  | cons e rest ih => simp [RulesCache.run, ih]

theorem consumerLoop_append (unmarshal : Bytes → Option message) (xs ys : List Bytes) :
    consumerLoop unmarshal (xs ++ ys)
      = consumerLoop unmarshal xs ++ consumerLoop unmarshal ys := by
  induction xs with
  | nil => rfl
  | cons b rest ih => simp [consumerLoop, ih]

theorem consumerIter_dropped (unmarshal : Bytes → Option message) (body : Bytes)
    (h : dropped unmarshal body = true) : consumerIter unmarshal body = [] := by
  unfold dropped at h
  unfold consumerIter
  cases hu : unmarshal body with
  | none => rfl
  | some m =>
    rw [hu] at h
    cases hr : m.Rule with
    | none => simp [hr]
    | some r => simp [hr] at h

theorem consumerLoop_filter (unmarshal : Bytes → Option message) (msgs : List Bytes) :
    consumerLoop unmarshal (msgs.filter (fun b => !dropped unmarshal b))
      = consumerLoop unmarshal msgs := by
  induction msgs with
  | nil => rfl
  | cons b rest ih =>
    cases hb : dropped unmarshal b with
    | true => simp [List.filter, hb, consumerLoop, consumerIter_dropped unmarshal b hb, ih]
    | false => simp [List.filter, hb, consumerLoop, ih]

theorem consumerIter_add (unmarshal : Bytes → Option message) (body : Bytes) (R : Rule)
    (h : unmarshal body = some ⟨RULEADD, some R⟩) :
    consumerIter unmarshal body = [Event.Put R] := by
  simp [consumerIter, h]

theorem consumerIter_delete (unmarshal : Bytes → Option message) (body : Bytes) (R : Rule)
    (h : unmarshal body = some ⟨RULEDELETE, some R⟩) :
    consumerIter unmarshal body = [Event.Delete R.ID] := by
  simp [consumerIter, h, RULEADD, RULEDELETE]

theorem consumerIter_other (unmarshal : Bytes → Option message) (body : Bytes) (m : message)
    (h : unmarshal body = some m) (hadd : m.Type_ ≠ RULEADD) (hdel : m.Type_ ≠ RULEDELETE) :
    consumerIter unmarshal body = [] := by
  unfold consumerIter
  rw [h]
  cases hr : m.Rule with
  | none => simp [hr]
  | some r => simp [hr, hadd, hdel]

/-! ## Claims about the replica consumer -/

/-- C1: when the consumer loop processes a payload that decodes to an "add"
message for rule R, it calls Put with exactly R and the cache then holds R at
R.ID, whatever it held before; when it then processes a payload that decodes
to a "delete" message whose rule has the same ID, it calls Delete with exactly
R.ID and the cache no longer holds that ID. -/
theorem consumer_add_then_delete (unmarshal : Bytes → Option message) (db : RulesCache)
    (R D : Rule) (pa pd : Bytes)
    (ha : unmarshal pa = some ⟨RULEADD, some R⟩)
    (hd : unmarshal pd = some ⟨RULEDELETE, some D⟩)
    (hid : D.ID = R.ID) :
    consumerLoop unmarshal [pa] = [Event.Put R]
    ∧ db.run (consumerLoop unmarshal [pa]) = db.Put R
    ∧ (db.run (consumerLoop unmarshal [pa])).Get R.ID = some R
    ∧ consumerLoop unmarshal [pd] = [Event.Delete R.ID]
    ∧ db.run (consumerLoop unmarshal [pa, pd]) = (db.Put R).Delete R.ID
    ∧ (db.run (consumerLoop unmarshal [pa, pd])).Get R.ID = none := by
  have h1 : consumerLoop unmarshal [pa] = [Event.Put R] := by
    simp [consumerLoop, consumerIter_add unmarshal pa R ha]
  have h2 : consumerLoop unmarshal [pd] = [Event.Delete R.ID] := by
    simp [consumerLoop, consumerIter_delete unmarshal pd D hd, hid]
  have h3 : consumerLoop unmarshal [pa, pd] = [Event.Put R, Event.Delete R.ID] := by
    simp [consumerLoop, consumerIter_add unmarshal pa R ha,
      consumerIter_delete unmarshal pd D hd, hid]
  refine ⟨h1, ?_, ?_, h2, ?_, ?_⟩
  · rw [h1]; rfl
  · rw [h1]; exact RulesCache.get_put db R
  · rw [h3]; rfl
  · rw [h3]; exact RulesCache.get_delete (db.Put R) R.ID

/-- Witness for C1: an add payload and a delete payload for rule 7, starting
from a cache that holds an older rule 7. -/
theorem consumer_add_then_delete_witness :
    (RulesCache.run ⟨[⟨7, "old"⟩]⟩
        (consumerLoop (fun b => if b = [1] then some ⟨RULEADD, some ⟨7, "new"⟩⟩
          else some ⟨RULEDELETE, some ⟨7, ""⟩⟩) [[1]])).Get 7 = some ⟨7, "new"⟩
    ∧ (RulesCache.run ⟨[⟨7, "old"⟩]⟩
        (consumerLoop (fun b => if b = [1] then some ⟨RULEADD, some ⟨7, "new"⟩⟩
          else some ⟨RULEDELETE, some ⟨7, ""⟩⟩) [[1], [2]])).Get 7 = none :=
  have h := consumer_add_then_delete
    (fun b => if b = [1] then some ⟨RULEADD, some ⟨7, "new"⟩⟩
      else some ⟨RULEDELETE, some ⟨7, ""⟩⟩)
    ⟨[⟨7, "old"⟩]⟩ ⟨7, "new"⟩ ⟨7, ""⟩ [1] [2] (by simp) (by simp) rfl
  ⟨h.2.2.1, h.2.2.2.2.2⟩

/-- C2: a payload that fails to deserialize, or that deserializes to a message
whose rule is nil, produces no cache call and does not end the loop: the calls
made (hence the cache reached from any initial cache) over a whole sequence of
payloads are those made over the sequence with such payloads removed. -/
theorem consumer_drops_bad_payloads (unmarshal : Bytes → Option message)
    (db : RulesCache) (msgs : List Bytes) :
    (∀ b, dropped unmarshal b = true → consumerIter unmarshal b = [])
    ∧ consumerLoop unmarshal msgs
        = consumerLoop unmarshal (msgs.filter (fun b => !dropped unmarshal b))
    ∧ db.run (consumerLoop unmarshal msgs)
        = db.run (consumerLoop unmarshal (msgs.filter (fun b => !dropped unmarshal b)))
    ∧ (∀ pre bad post, dropped unmarshal bad = true →
        db.run (consumerLoop unmarshal (pre ++ bad :: post))
          = (db.run (consumerLoop unmarshal pre)).run (consumerLoop unmarshal post)) := by
  refine ⟨consumerIter_dropped unmarshal, (consumerLoop_filter unmarshal msgs).symm, ?_, ?_⟩
  · rw [consumerLoop_filter]
  · intro pre bad post hbad
    rw [consumerLoop_append, RulesCache.run_append]
    simp [consumerLoop, consumerIter_dropped unmarshal bad hbad]

/-- Witness for C2: a payload that does not parse and one with a nil rule, in
front of a valid add for rule 3. -/
theorem consumer_drops_bad_payloads_witness :
    RulesCache.run ⟨[]⟩
        (consumerLoop (fun b => if b = [0] then none else if b = [1] then some ⟨"add", none⟩
          else some ⟨"add", some ⟨3, "r"⟩⟩) [[0], [1], [2]])
      = RulesCache.run ⟨[]⟩
        (consumerLoop (fun b => if b = [0] then none else if b = [1] then some ⟨"add", none⟩
          else some ⟨"add", some ⟨3, "r"⟩⟩)
          ([[0], [1], [2]].filter (fun b => !dropped (fun b => if b = [0] then none
            else if b = [1] then some ⟨"add", none⟩
            else some ⟨"add", some ⟨3, "r"⟩⟩) b))) :=
  (consumer_drops_bad_payloads (fun b => if b = [0] then none
      else if b = [1] then some ⟨"add", none⟩ else some ⟨"add", some ⟨3, "r"⟩⟩)
    ⟨[]⟩ [[0], [1], [2]]).2.2.1

/-- C10: a payload that decodes to a message with a non-nil rule whose type is
neither "add" nor "delete" makes the consumer call neither Put nor Delete: the
cache is unchanged and the loop goes on with the payloads that follow. -/
theorem consumer_ignores_unknown_type (unmarshal : Bytes → Option message)
    (db : RulesCache) (body : Bytes) (ty : String) (R : Rule) (rest : List Bytes)
    (h : unmarshal body = some ⟨ty, some R⟩)
    (hadd : ty ≠ "add") (hdel : ty ≠ "delete") :
    consumerIter unmarshal body = []
    ∧ db.run (consumerIter unmarshal body) = db
    ∧ consumerLoop unmarshal (body :: rest) = consumerLoop unmarshal rest
    ∧ db.run (consumerLoop unmarshal (body :: rest))
        = db.run (consumerLoop unmarshal rest) := by
  have h0 : consumerIter unmarshal body = [] :=
    consumerIter_other unmarshal body ⟨ty, some R⟩ h hadd hdel
  refine ⟨h0, ?_, ?_, ?_⟩
  · rw [h0]; rfl
  · simp [consumerLoop, h0]
  · simp [consumerLoop, h0]

/-- Witness for C10: the type "ADD" (wrong case) and the empty type. -/
theorem consumer_ignores_unknown_type_witness :
    consumerIter (fun _ => some ⟨"ADD", some ⟨1, "x"⟩⟩) [0] = []
    ∧ consumerIter (fun _ => some ⟨"", some ⟨1, "x"⟩⟩) [0] = [] :=
  ⟨(consumer_ignores_unknown_type (fun _ => some ⟨"ADD", some ⟨1, "x"⟩⟩) ⟨[]⟩ [0] "ADD"
      ⟨1, "x"⟩ [] rfl (by decide) (by decide)).1,
   (consumer_ignores_unknown_type (fun _ => some ⟨"", some ⟨1, "x"⟩⟩) ⟨[]⟩ [0] ""
      ⟨1, "x"⟩ [] rfl (by decide) (by decide)).1⟩

/-! ## Lemmas on traces -/

theorem errChWrites_append (xs ys : List Event) :
    errChWrites (xs ++ ys) = errChWrites xs ++ errChWrites ys := by
  induction xs with
  | nil => rfl
  | cons e rest ih => cases e <;> simp [errChWrites, ih]

theorem errChWrites_publisherIter (h : Hub) (marshal : message → Option Bytes)
    (pe : Option Error) (msg : message) :
    errChWrites (publisherIter h marshal pe msg) = [] := by
  unfold publisherIter
  cases marshal msg <;> simp [errChWrites]

theorem errChWrites_publisherLoop (h : Hub) (marshal : message → Option Bytes)
    (pes : Nat → Option Error) (i : Nat) (msgs : List message) :
    errChWrites (publisherLoop h marshal pes i msgs) = [] := by
  induction msgs generalizing i with
  | nil => rfl
  | cons m rest ih =>
    simp [publisherLoop, errChWrites_append, errChWrites_publisherIter, ih]

theorem errChWrites_consumerIter (unmarshal : Bytes → Option message) (body : Bytes) :
    errChWrites (consumerIter unmarshal body) = [] := by
  unfold consumerIter
  cases unmarshal body with
  | none => rfl
  | some m =>
    cases hr : m.Rule with
    | none => simp [hr, errChWrites]
    | some r =>
      simp only [hr]
      split
      · rfl
      · split <;> rfl

theorem errChWrites_consumerLoop (unmarshal : Bytes → Option message) (msgs : List Bytes) :
    errChWrites (consumerLoop unmarshal msgs) = [] := by
  induction msgs with
  | nil => rfl
  | cons b rest ih =>
    simp [consumerLoop, errChWrites_append, errChWrites_consumerIter, ih]

theorem publisherLoop_eq (h : Hub) (marshal : message → Option Bytes)
    (pes : Nat → Option Error) (i : Nat) (msgs : List message) :
    publisherLoop h marshal pes i msgs
      = msgs.filterMap (fun m =>
          (marshal m).map (fun buf => Event.Publish h.opts.ExchangeName "" "text/plain" buf m)) := by
  induction msgs generalizing i with
  | nil => rfl
  | cons m rest ih =>
    cases hm : marshal m with
    | none => simp [publisherLoop, publisherIter, hm, ih]
    | some buf => simp [publisherLoop, publisherIter, hm, ih]

theorem errChWrites_publisherW (t : Transport) (h : Hub) (marshal : message → Option Bytes)
    (pes : Nat → Option Error) (msgs : List message) (closed : Bool) :
    errChWrites (publisherW t h marshal pes msgs closed).trace
      = [firstError (publisherSetup t h.opts)] := by
  unfold publisherW publisherSetup
  cases hc : t.Channel with
  | some e => simp [errChWrites, firstError]
  | none =>
    cases hx : t.ExchangeDeclare h.opts.ExchangeName ExchangeType with
    | some e => simp [errChWrites, firstError]
    | none =>
      cases closed <;>
        simp [errChWrites, firstError, errChWrites_append, errChWrites_publisherLoop]

theorem errChWrites_consumerW (t : Transport) (h : Hub) (unmarshal : Bytes → Option message)
    (msgs : List Bytes) (closed : Bool) :
    errChWrites (consumerW t h unmarshal msgs closed).trace
      = [firstError (consumerSetup t h.opts)] := by
  unfold consumerW consumerSetup
  cases hc : t.Channel with
  | some e => simp [errChWrites, firstError]
  | none =>
    cases hx : t.ExchangeDeclare h.opts.ExchangeName ExchangeType with
    | some e => simp [errChWrites, firstError]
    | none =>
      cases hq : t.QueueDeclare h.opts.QueueName with
      | error e => simp [errChWrites, firstError]
      | ok q =>
        cases hb : t.QueueBind q "" h.opts.ExchangeName with
        | some e => simp [hb, errChWrites, firstError]
        | none =>
          cases hs : t.Consume q with
          | some e => simp [hb, hs, errChWrites, firstError]
          | none =>
            cases closed <;>
              simp [hb, hs, errChWrites, firstError, errChWrites_append,
                errChWrites_consumerLoop]

/-- The value `New` receives from `errCh` after a successful dial. -/
theorem New_of_dial_ok (env : Env) (opts : Options)
    (hd : env.transport.Dial opts.DSN = none) :
    ∃ worker : Run,
      (worker = if opts.Master then
          publisherW env.transport ⟨opts⟩ env.marshal env.publishErrs env.outbound
            env.outboundClosed
        else consumerW env.transport ⟨opts⟩ env.unmarshal env.inbound env.inboundClosed)
      ∧ errChWrites worker.trace
          = [firstError (if opts.Master then publisherSetup env.transport opts
              else consumerSetup env.transport opts)]
      ∧ New env opts =
        match firstError (if opts.Master then publisherSetup env.transport opts
              else consumerSetup env.transport opts) with
        | some err => some ⟨none, some err, true, opts.Master, some worker⟩
        | none => some ⟨some ⟨opts⟩, none, false, opts.Master, some worker⟩ := by
  refine ⟨_, rfl, ?_, ?_⟩
  · cases hM : opts.Master with
    | true => simpa using errChWrites_publisherW _ ⟨opts⟩ _ _ _ _
    | false => simpa using errChWrites_consumerW _ ⟨opts⟩ _ _ _
  · have hw : errChWrites (if opts.Master then
          publisherW env.transport ⟨opts⟩ env.marshal env.publishErrs env.outbound
            env.outboundClosed
        else consumerW env.transport ⟨opts⟩ env.unmarshal env.inbound
            env.inboundClosed).trace
          = [firstError (if opts.Master then publisherSetup env.transport opts
              else consumerSetup env.transport opts)] := by
      cases hM : opts.Master with
      | true => simpa using errChWrites_publisherW _ ⟨opts⟩ _ _ _ _
      | false => simpa using errChWrites_consumerW _ ⟨opts⟩ _ _ _
    unfold New
    simp only [hd, hw, List.head?_cons]
    cases firstError (if opts.Master then publisherSetup env.transport opts
              else consumerSetup env.transport opts) <;> rfl

theorem New_isSome (env : Env) (opts : Options) : (New env opts).isSome = true := by
  cases hd : env.transport.Dial opts.DSN with
  | some e => simp [New, hd]
  | none =>
    obtain ⟨w, _, _, hN⟩ := New_of_dial_ok env opts hd
    rw [hN]
    split <;> rfl

theorem firstError_eq_none_iff (steps : List (Option Error)) :
    firstError steps = none ↔ steps.any Option.isSome = false := by
  induction steps with
  | nil => simp [firstError]
  | cons e rest ih => cases e <;> simp [firstError, ih]

theorem publishedMsgs_append (xs ys : List Event) :
    publishedMsgs (xs ++ ys) = publishedMsgs xs ++ publishedMsgs ys := by
  induction xs with
  | nil => rfl
  | cons e rest ih => cases e <;> simp [publishedMsgs, ih]

theorem publishedMsgs_publisherLoop (h : Hub) (marshal : message → Option Bytes)
    (pes : Nat → Option Error) (i : Nat) (msgs : List message) :
    publishedMsgs (publisherLoop h marshal pes i msgs)
      = msgs.filter (fun m => (marshal m).isSome) := by
  induction msgs generalizing i with
  | nil => rfl
  | cons m rest ih =>
    cases hm : marshal m with
    | none => simp [publisherLoop, publisherIter, hm, ih, publishedMsgs_append, publishedMsgs]
    | some buf =>
      simp [publisherLoop, publisherIter, hm, ih, publishedMsgs_append, publishedMsgs]

/-! ## Claims about construction and the publisher -/

/-- C5: New always returns; it returns a non-nil error together with a nil Hub
exactly when one of the setup steps of the role fails (dial, opening the
channel, exchange declaration, and on a replica queue declaration, queue binding
or consume start), the error being that of the first failing step; after a
successful dial every such failure closes the connection before New returns; and
when no step fails New returns the Hub and a nil error without closing the
connection. -/
theorem New_fails_iff_setup_fails (env : Env) (opts : Options) :
    ∃ r : NewResult, New env opts = some r
      ∧ ((r.err ≠ none ∧ r.hub = none) ↔ setupFails env.transport opts = true)
      ∧ r.err = firstError (setupSteps env.transport opts)
      ∧ (setupFails env.transport opts = true → env.transport.Dial opts.DSN = none →
          r.connClosed = true)
      ∧ (setupFails env.transport opts = false →
          r.hub = some ⟨opts⟩ ∧ r.err = none ∧ r.connClosed = false) := by
  cases hd : env.transport.Dial opts.DSN with
  | some e =>
    refine ⟨⟨none, some e, false, false, none⟩, ?_, ?_, ?_, ?_, ?_⟩
    · simp [New, hd]
    · simp [setupFails, setupSteps, hd]
    · simp [setupSteps, hd, firstError]
    · intro _ h; cases h
    · intro h; simp [setupFails, setupSteps, hd] at h
  | none =>
    obtain ⟨w, _, _, hN⟩ := New_of_dial_ok env opts hd
    have hfe : firstError (setupSteps env.transport opts)
        = firstError (if opts.Master then publisherSetup env.transport opts
            else consumerSetup env.transport opts) := by
      simp [setupSteps, hd, firstError]
    have hsf : setupFails env.transport opts = false
        ↔ firstError (setupSteps env.transport opts) = none := by
      rw [firstError_eq_none_iff]; rfl
    rw [← hfe] at hN
    cases hf : firstError (setupSteps env.transport opts) with
    | some e =>
      have hT : setupFails env.transport opts = true := by
        cases hb : setupFails env.transport opts with
        | true => rfl
        | false => rw [hsf.mp hb] at hf; cases hf
      rw [hf] at hN
      refine ⟨_, hN, ?_, rfl, ?_, ?_⟩
      · simp [hT]
      · intro _ _; rfl
      · intro h; rw [hT] at h; cases h
    | none =>
      have hF : setupFails env.transport opts = false := hsf.mpr hf
      rw [hf] at hN
      refine ⟨_, hN, ?_, rfl, ?_, ?_⟩
      · simp [hF]
      · intro h; rw [hF] at h; cases h
      · intro _; exact ⟨rfl, rfl, rfl⟩

/-- Witness for C5: a replica whose queue binding fails. -/
theorem New_fails_iff_setup_fails_witness :
    ∃ r : NewResult,
      New ⟨⟨fun _ => none, none, fun _ _ => none, fun q => Except.ok q,
            fun _ _ _ => some "bind refused", fun _ => none⟩,
          fun _ => none, fun _ => none, fun _ => none, [], false, [], false⟩
        ⟨false, "amqp://bus", "/", "rules-x", "q1"⟩ = some r
      ∧ r.err = some "bind refused" ∧ r.hub = none ∧ r.connClosed = true := by
  obtain ⟨r, h1, _, h3, h4, _⟩ := New_fails_iff_setup_fails
    ⟨⟨fun _ => none, none, fun _ _ => none, fun q => Except.ok q,
        fun _ _ _ => some "bind refused", fun _ => none⟩,
      fun _ => none, fun _ => none, fun _ => none, [], false, [], false⟩
    ⟨false, "amqp://bus", "/", "rules-x", "q1"⟩
  have h5 : r.hub = none := by
    simp only [New] at h1
    cases h1
    rfl
  exact ⟨r, h1, h3, h5, h4 rfl rfl⟩

/-- C6: on every path of the background task, for every outcome of the
transport calls, exactly one value is sent on the result channel, so the
receive in New always completes; the value is the first setup error, or nil
when every setup step succeeded; when setup succeeded the send is the first
effect of the task and the message loop that follows sends nothing. -/
theorem errCh_written_exactly_once (env : Env) (h : Hub) :
    errChWrites
        (publisherW env.transport h env.marshal env.publishErrs env.outbound
          env.outboundClosed).trace
      = [firstError (publisherSetup env.transport h.opts)]
    ∧ errChWrites
        (consumerW env.transport h env.unmarshal env.inbound env.inboundClosed).trace
      = [firstError (consumerSetup env.transport h.opts)]
    ∧ (New env h.opts).isSome = true
    ∧ (∀ i, errChWrites (publisherLoop h env.marshal env.publishErrs i env.outbound) = [])
    ∧ errChWrites (consumerLoop env.unmarshal env.inbound) = []
    ∧ (firstError (publisherSetup env.transport h.opts) = none →
        (publisherW env.transport h env.marshal env.publishErrs env.outbound
            env.outboundClosed).trace
          = Event.errChSend none
              :: (publisherLoop h env.marshal env.publishErrs 0 env.outbound
                  ++ if env.outboundClosed then [Event.ChannelClose] else []))
    ∧ (firstError (consumerSetup env.transport h.opts) = none →
        (consumerW env.transport h env.unmarshal env.inbound env.inboundClosed).trace
          = Event.errChSend none
              :: (consumerLoop env.unmarshal env.inbound
                  ++ if env.inboundClosed then [Event.ChannelClose] else [])) := by
  refine ⟨errChWrites_publisherW _ _ _ _ _ _, errChWrites_consumerW _ _ _ _ _, ?_,
    fun i => errChWrites_publisherLoop _ _ _ i _, errChWrites_consumerLoop _ _, ?_, ?_⟩
  · exact New_isSome env h.opts
  · intro hf
    unfold publisherSetup at hf
    unfold publisherW
    cases hc : env.transport.Channel with
    | some e => simp [hc, firstError] at hf
    | none =>
      cases hx : env.transport.ExchangeDeclare h.opts.ExchangeName ExchangeType with
      | some e => simp [hc, hx, firstError] at hf
      | none => cases env.outboundClosed <;> simp
  · intro hf
    unfold consumerSetup at hf
    unfold consumerW
    cases hc : env.transport.Channel with
    | some e => simp [hc, firstError] at hf
    | none =>
      cases hx : env.transport.ExchangeDeclare h.opts.ExchangeName ExchangeType with
      | some e => simp [hc, hx, firstError] at hf
      | none =>
        cases hq : env.transport.QueueDeclare h.opts.QueueName with
        | error e => simp [hc, hx, hq, firstError] at hf
        | ok q =>
          cases hb : env.transport.QueueBind q "" h.opts.ExchangeName with
          | some e => simp [hc, hx, hq, hb, firstError] at hf
          | none =>
            cases hs : env.transport.Consume q with
            | some e => simp [hc, hx, hq, hb, hs, firstError] at hf
            | none => cases env.inboundClosed <;> simp [hb, hs]

/-- Witness for C6: a replica whose consume call fails writes that error once. -/
theorem errCh_written_exactly_once_witness :
    errChWrites
        (consumerW ⟨fun _ => none, none, fun _ _ => none, fun q => Except.ok q,
            fun _ _ _ => none, fun _ => some "consume refused"⟩
          ⟨⟨false, "amqp://bus", "/", "rules-x", "q1"⟩⟩ (fun _ => none) [[1], [2]] false).trace
      = [some "consume refused"] :=
  (errCh_written_exactly_once
    ⟨⟨fun _ => none, none, fun _ _ => none, fun q => Except.ok q,
        fun _ _ _ => none, fun _ => some "consume refused"⟩,
      fun _ => none, fun _ => none, fun _ => none, [], false, [[1], [2]], false⟩
    ⟨⟨false, "amqp://bus", "/", "rules-x", "q1"⟩⟩).2.1

/-- C8: once setup has succeeded, the publisher issues exactly one publish call
for each dequeued message that serializes, in the order of the queue, to the
configured exchange with an empty routing key, and none for a message that does
not serialize; whatever the serialization and publish outcomes, the loop goes
through every dequeued message, and the task returns (releasing the channel)
exactly when the outbound queue has been closed. -/
theorem publisher_publishes_each_once (t : Transport) (h : Hub)
    (marshal : message → Option Bytes) (publishErrs : Nat → Option Error)
    (msgs : List message) (closed : Bool)
    (hc : t.Channel = none)
    (hx : t.ExchangeDeclare h.opts.ExchangeName ExchangeType = none) :
    publisherLoop h marshal publishErrs 0 msgs
      = msgs.filterMap (fun m =>
          (marshal m).map (fun buf => Event.Publish h.opts.ExchangeName "" "text/plain" buf m))
    ∧ publishedMsgs (publisherLoop h marshal publishErrs 0 msgs)
      = msgs.filter (fun m => (marshal m).isSome)
    ∧ (publisherW t h marshal publishErrs msgs closed).trace
      = Event.errChSend none
          :: (publisherLoop h marshal publishErrs 0 msgs
              ++ if closed then [Event.ChannelClose] else [])
    ∧ (publisherW t h marshal publishErrs msgs closed).returned = closed := by
  refine ⟨publisherLoop_eq _ _ _ _ _, publishedMsgs_publisherLoop _ _ _ _ _, ?_, ?_⟩
  · unfold publisherW
    rw [hc]
    simp only [hx]
    cases closed <;> simp
  · unfold publisherW
    rw [hc]
    simp only [hx]
    cases closed <;> simp

/-- Witness for C8: three messages of which the second does not serialize and
the first publish fails; the queue is then closed. -/
theorem publisher_publishes_each_once_witness :
    (publisherW ⟨fun _ => none, none, fun _ _ => none, fun q => Except.ok q,
          fun _ _ _ => none, fun _ => none⟩
        ⟨⟨true, "amqp://bus", "/", "rules-x", ""⟩⟩
        (fun m => if m.Rule = none then none else some [1])
        (fun i => if i = 0 then some "publish failed" else none)
        [⟨"add", some ⟨1, "a"⟩⟩, ⟨"add", none⟩, ⟨"delete", some ⟨1, "a"⟩⟩] true).trace
      = [Event.errChSend none,
         Event.Publish "rules-x" "" "text/plain" [1] ⟨"add", some ⟨1, "a"⟩⟩,
         Event.Publish "rules-x" "" "text/plain" [1] ⟨"delete", some ⟨1, "a"⟩⟩,
         Event.ChannelClose] := by
  have h := publisher_publishes_each_once
    ⟨fun _ => none, none, fun _ _ => none, fun q => Except.ok q,
      fun _ _ _ => none, fun _ => none⟩
    ⟨⟨true, "amqp://bus", "/", "rules-x", ""⟩⟩
    (fun m => if m.Rule = none then none else some [1])
    (fun i => if i = 0 then some "publish failed" else none)
    [⟨"add", some ⟨1, "a"⟩⟩, ⟨"add", none⟩, ⟨"delete", some ⟨1, "a"⟩⟩] true rfl rfl
  rw [h.2.2.1, h.1]
  simp

/-! ## Lemmas on the pipeline -/

/-- C9: there is an interleaving in which an add notification for rule R is
delivered to the add queue before a delete notification for R is delivered to
the delete queue, and yet the add message is pushed onto the outbound queue
after the delete message and is published after it. -/
theorem add_can_be_published_after_later_delete (h : Hub)
    (marshal : message → Option Bytes) (publishErrs : Nat → Option Error) (R : Rule)
    (hadd : (marshal (wrap RULEADD R)).isSome = true)
    (hdel : (marshal (wrap RULEDELETE R)).isSome = true) :
    ∃ s1 s2 : Pipeline,
      exec h marshal publishErrs (Pipeline.start true true)
          [Action.OnAdd R, Action.OnDel R, Action.delRecv, Action.delSend,
            Action.addRecv, Action.addSend] = some s1
      ∧ s1.msgCh = [wrap RULEDELETE R, wrap RULEADD R]
      ∧ exec h marshal publishErrs s1 [Action.publish, Action.publish] = some s2
      ∧ publishedMsgs s2.published = [wrap RULEDELETE R, wrap RULEADD R] := by
  obtain ⟨ba, hba⟩ := Option.isSome_iff_exists.mp hadd
  obtain ⟨bd, hbd⟩ := Option.isSome_iff_exists.mp hdel
  refine ⟨⟨true, true, [], [], [wrap RULEDELETE R, wrap RULEADD R], none, none, 0, [],
      [R], [R]⟩,
    ⟨true, true, [], [], [], none, none, 2,
      [Event.Publish h.opts.ExchangeName "" "text/plain" bd (wrap RULEDELETE R),
        Event.Publish h.opts.ExchangeName "" "text/plain" ba (wrap RULEADD R)],
      [R], [R]⟩, ?_, rfl, ?_, ?_⟩
  · rfl
  · simp [exec, step, publisherIter, hba, hbd]
  · simp [publishedMsgs]

/-- Witness for C9: rule 1 with a serializer that always succeeds. -/
theorem add_can_be_published_after_later_delete_witness :
    ∃ s1 s2 : Pipeline,
      exec ⟨⟨true, "amqp://bus", "/", "rules-x", ""⟩⟩ (fun _ => some []) (fun _ => none)
          (Pipeline.start true true)
          [Action.OnAdd ⟨1, "a"⟩, Action.OnDel ⟨1, "a"⟩, Action.delRecv, Action.delSend,
            Action.addRecv, Action.addSend] = some s1
      ∧ s1.msgCh = [wrap RULEDELETE ⟨1, "a"⟩, wrap RULEADD ⟨1, "a"⟩]
      ∧ exec ⟨⟨true, "amqp://bus", "/", "rules-x", ""⟩⟩ (fun _ => some []) (fun _ => none)
          s1 [Action.publish, Action.publish] = some s2
      ∧ publishedMsgs s2.published = [wrap RULEDELETE ⟨1, "a"⟩, wrap RULEADD ⟨1, "a"⟩] :=
  add_can_be_published_after_later_delete ⟨⟨true, "amqp://bus", "/", "rules-x", ""⟩⟩
    (fun _ => some []) (fun _ => none) ⟨1, "a"⟩ rfl rfl

/-! ## What a failed setup leaves behind -/

end Cluster
